import Mathlib

/-!
Shallow embedding of `src/generate_pdf.py` (table layout engine of the
PDF generator), covering `PDFGenerator.header`, `PDFGenerator.footer`,
`PDFGenerator.add_products_table`, `generate_pdf_from_data` and
`generate_pdf_from_template`.

The script draws through the `fpdf2` library.  The parts of that library
the script exercises are embedded faithfully:

* `FPDF.cell(w, h, text, fill=..)` first performs the automatic page break
  (`y + h > page_break_trigger`, strict, with the current `x` saved and
  restored around `add_page`), then emits one cell at the current `(x, y)`
  and moves `x` right by the cell width (`new_x="RIGHT"`, `new_y="TOP"`,
  the defaults) or moves to the left margin and down by `h`
  (`new_x="LMARGIN"`, `new_y="NEXT"`, used for the title and summary cells);
  a width of `0` extends the cell to the right margin.
* `FPDF.add_page` draws the footer on the page being closed (`page > 0`),
  opens a new page with `x = l_margin`, `y = t_margin`, and runs the
  user `header()` override (here: the centered title cell of height 10
  followed by `ln(5)`); cells drawn inside `header`/`footer` never trigger
  a page break.
* `FPDF.ln(h)` moves `x` back to the left margin and `y` down by `h`;
  the script's bare `self.ln()` uses the height of the last printed cell
  (10 after the table-header row, 8 after a data row).
* Geometry: A4 portrait in millimetres (`841.89 pt` tall, `595.28 pt`
  wide, one point = 25.4/72 mm), default margins of exactly 10 mm, and
  `set_auto_page_break(auto=True, margin=15)` giving
  `page_break_trigger = page_height - 15`.

Lengths are modelled as exact rationals; Python computes them in IEEE
doubles, but every quantity compared here sits far from any rounding tie
(the vertical cursor moves on an integer grid while the break trigger is
`297.000083… - 15`), so the real-number model decides every comparison
the floats decide, identically.

Cell values are taken as the strings Python's `str()` produces for them
(the spec's "string-convertible cells"); `row[col]` is the positional
cell of the rectangular DataFrame, so a row is a `List String` aligned
with the column list, and the row-label `idx` of `df.iterrows()` is
dropped because the script never reads it.  Each emitted cell carries a
`Tag` naming the call site (and loop indices) in `add_products_table`
that produced it; the tag is bookkeeping for the statements and stores
no information the drawing itself does not determine.
-/

/-- Python string slicing `s[:k]`: the first `k` characters, silently. -/
def trunc (k : Nat) (s : String) : String := ⟨s.data.take k⟩

/-- Which call site of the script emitted a cell. -/
inductive Tag where
  | title
  | footer
  | hdrIdx
  | hdrCol (j : Nat)
  | dataIdx (i : Nat)
  | dataVal (i j : Nat)
  | summary
deriving DecidableEq

/-- One emitted drawing instruction: a bordered cell of the document. -/
structure Cell where
  page : Nat
  x : ℚ
  y : ℚ
  w : ℚ
  h : ℚ
  text : String
  fill : Bool
  tag : Tag
deriving DecidableEq

/-- Page geometry, as fpdf2 sets it up for this script. -/
structure Config where
  pageW : ℚ
  pageH : ℚ
  lMargin : ℚ
  tMargin : ℚ
  rMargin : ℚ
  bMargin : ℚ
deriving DecidableEq

/-- The geometry the script actually runs with: A4 portrait in mm
(fpdf2 stores A4 as 595.28 x 841.89 points), margins of 10 mm, and the
bottom auto-page-break margin of 15 set in `PDFGenerator.__init__`. -/
def cfg0 : Config :=
  { pageW := 15120112 / 72000
    pageH := 21384006 / 72000
    lMargin := 10
    tMargin := 10
    rMargin := 10
    bMargin := 15 }

/-- fpdf2's `page_break_trigger = h - b_margin`. -/
def pbTrigger (cfg : Config) : ℚ := cfg.pageH - cfg.bMargin

/-- Mutable drawing state of the `FPDF` object: current page number,
cursor position, and the instructions emitted so far, in order. -/
structure RState where
  page : Nat
  x : ℚ
  y : ℚ
  instrs : List Cell
deriving DecidableEq

/-- A freshly constructed `PDFGenerator()`: no page yet. -/
def initState (cfg : Config) : RState :=
  { page := 0, x := cfg.lMargin, y := cfg.tMargin, instrs := [] }

/-- The fixed page-title text drawn by `PDFGenerator.header`. -/
def titleText : String := "Каталог товаров"

/-- The footer text of `PDFGenerator.footer` for page `p`; the timestamp
`ts` is produced by `datetime.now()` and treated as an opaque input. -/
def footerText (ts : String) (p : Nat) : String :=
  "Сгенерировано: " ++ ts ++ " | Стр. " ++ toString p

/-- The trailing summary text of `add_products_table` for `n` records. -/
def summaryText (n : Nat) : String := "Всего записей: " ++ toString n

/-- The title cell `header` draws at the top of page `p`:
`cell(0, 10, 'Каталог товаров', align='C', new_x='LMARGIN', new_y='NEXT')`
drawn at `(l_margin, t_margin)` with width up to the right margin. -/
def titleCell (cfg : Config) (p : Nat) : Cell :=
  { page := p, x := cfg.lMargin, y := cfg.tMargin
    w := cfg.pageW - cfg.rMargin - cfg.lMargin, h := 10
    text := titleText, fill := false, tag := .title }

/-- The footer cell `footer` draws on page `p`: `set_y(-15)` (which also
moves `x` to the left margin) then `cell(0, 10, …, align='C')`. -/
def footerCell (cfg : Config) (ts : String) (p : Nat) : Cell :=
  { page := p, x := cfg.lMargin, y := cfg.pageH - 15
    w := cfg.pageW - cfg.rMargin - cfg.lMargin, h := 10
    text := footerText ts p, fill := false, tag := .footer }

/-- fpdf2 `add_page`: draw the footer of the page being closed (if one is
open), open the next page at `x = l_margin`, `y = t_margin`, and run the
`header` override — the title cell (`new_y='NEXT'`, so `y` drops by 10)
followed by `ln(5)`, leaving the cursor at `(l_margin, t_margin + 15)`. -/
def addPage (cfg : Config) (ts : String) (s : RState) : RState :=
  let closed : List Cell :=
    if 0 < s.page then s.instrs ++ [footerCell cfg ts s.page] else s.instrs
  { page := s.page + 1
    x := cfg.lMargin
    y := cfg.tMargin + 10 + 5
    instrs := closed ++ [titleCell cfg (s.page + 1)] }

/-- fpdf2 `cell(w, h, text, fill=fill)` as the script calls it: perform
the automatic page break if `y + h` passes the trigger (saving and
restoring `x` around `add_page`), then emit the cell at the cursor
(width `0` stretches to the right margin) and advance the cursor —
`x += w` by default, or `x = l_margin, y += h` when the script passes
`new_x='LMARGIN', new_y='NEXT'` (`toNext = true`). -/
def cellF (cfg : Config) (ts : String) (w h : ℚ) (txt : String) (fl : Bool)
    (tag : Tag) (toNext : Bool) (s : RState) : RState :=
  let s1 := if pbTrigger cfg < s.y + h then { addPage cfg ts s with x := s.x } else s
  let we := if w = 0 then cfg.pageW - cfg.rMargin - s1.x else w
  let c : Cell := { page := s1.page, x := s1.x, y := s1.y, w := we, h := h
                    text := txt, fill := fl, tag := tag }
  if toNext then
    { s1 with x := cfg.lMargin, y := s1.y + h, instrs := s1.instrs ++ [c] }
  else
    { s1 with x := s1.x + we, instrs := s1.instrs ++ [c] }

/-- fpdf2 `ln(dh)`: back to the left margin, down by `dh`. -/
def lnMove (cfg : Config) (dh : ℚ) (s : RState) : RState :=
  { s with x := cfg.lMargin, y := s.y + dh }

/-- `available_width = 190  # A4 минус поля`. -/
def availableWidth : ℚ := 190

/-- `num_col_width = 12`, the fixed width of the synthetic `№` column. -/
def numColWidth : ℚ := 12

/-- `col_width = (available_width - num_col_width) / num_cols`. -/
def colWidth (n : Nat) : ℚ := (availableWidth - numColWidth) / n

/-- The `for col in columns` loop of the table-header band: one filled
cell of height 10 per column, the name truncated to 15 characters
(`str(col)[:15]`); `j` is the position of the column. -/
def emitHeaderCells (cfg : Config) (ts : String) (cw : ℚ) :
    Nat → List String → RState → RState
  | _, [], s => s
  | j, c :: rest, s =>
      emitHeaderCells cfg ts cw (j + 1) rest
        (cellF cfg ts cw 10 (trunc 15 c) true (.hdrCol j) false s)

/-- The inner `for col in columns` loop of a data row: the `k` remaining
value cells of row `i`, starting at column position `j`; each value is
the row's cell in that column truncated to 20 characters
(`str(row[col])[:20]`).  A pandas DataFrame is rectangular, so the
`getD` default is never reached on the script's inputs. -/
def emitVals (cfg : Config) (ts : String) (cw : ℚ) (fl : Bool) (i : Nat)
    (row : List String) : Nat → Nat → RState → RState
  | _, 0, s => s
  | j, k + 1, s =>
      emitVals cfg ts cw fl i row (j + 1) k
        (cellF cfg ts cw 8 (trunc 20 (row.getD j "")) fl (.dataVal i j) false s)

/-- One iteration of the data loop: the shading flag `i % 2 == 0`, the
index cell `str(i + 1)` of width 12 and height 8, the value cells, and
the trailing `self.ln()` (height 8, that of the last printed cell). -/
def emitRow (cfg : Config) (ts : String) (n : Nat) (cw : ℚ) (i : Nat)
    (row : List String) (s : RState) : RState :=
  lnMove cfg 8
    (emitVals cfg ts cw (i % 2 == 0) i row 0 n
      (cellF cfg ts numColWidth 8 (toString (i + 1)) (i % 2 == 0) (.dataIdx i) false s))

/-- The `for i, (idx, row) in enumerate(df.iterrows())` loop, rows taken
in order with `i` counting from the given start (0 at the call site). -/
def emitRows (cfg : Config) (ts : String) (n : Nat) (cw : ℚ) :
    Nat → List (List String) → RState → RState
  | _, [], s => s
  | i, row :: rest, s =>
      emitRows cfg ts n cw (i + 1) rest (emitRow cfg ts n cw i row s)

/-- `PDFGenerator.add_products_table(df)` run on a fresh generator:
`add_page()` first (title band via `header`), then the column-width
division — which on a zero-column frame raises `ZeroDivisionError`
with the page already opened — then the table-header band, the data
rows, `ln(5)` and the summary cell
(`cell(0, 10, f'Всего записей: {len(df)}', new_x='LMARGIN', new_y='NEXT')`).
The returned `Option String` is the exception, `none` on success. -/
def addProductsTable (cfg : Config) (ts : String) (cols : List String)
    (rows : List (List String)) : RState × Option String :=
  if cols.length = 0 then
    (addPage cfg ts (initState cfg), some "ZeroDivisionError: division by zero")
  else
    (cellF cfg ts 0 10 (summaryText rows.length) false .summary true
      (lnMove cfg 5
        (emitRows cfg ts cols.length (colWidth cols.length) 0 rows
          (lnMove cfg 10
            (emitHeaderCells cfg ts (colWidth cols.length) 0 cols
              (cellF cfg ts numColWidth 10 "№" true .hdrIdx false
                (addPage cfg ts (initState cfg))))))), none)

/-- The caller-owned dataset: ordered column names and ordered rows of
string-convertible cells, aligned positionally (spec §3). -/
structure DataFrame where
  cols : List String
  rows : List (List String)
deriving DecidableEq

/-- The world a call to `add_products_table` acts on: the dataset the
caller owns and the drawing state of the generator.  The method reads
`df.columns`, `df.iterrows()` and `len(df)` and assigns to neither the
frame nor its cells, so the dataset component is passed through. -/
structure World where
  df : DataFrame
  pdf : RState

/-- `pdf.add_products_table(df)` as a transition on the world: the
drawing state is rebuilt from the reads of `df`; `df` itself is the one
object the caller passed in. -/
def addProductsTableW (cfg : Config) (ts : String) (w : World) :
    World × Option String :=
  let r := addProductsTable cfg ts w.df.cols w.df.rows
  ({ df := w.df, pdf := r.1 }, r.2)

/-- fpdf2 `output()`: closing the document draws the footer of the last
open page. -/
def outputDoc (cfg : Config) (ts : String) (s : RState) : RState :=
  if 0 < s.page then { s with instrs := s.instrs ++ [footerCell cfg ts s.page] }
  else s

/-- `generate_pdf_from_data(df, output_path)`: fresh `PDFGenerator()`,
`add_products_table(df)`, `output(path)`, return the path.  An exception
from the table propagates before `output` runs. -/
def generatePdfFromData (cfg : Config) (ts : String) (df : DataFrame)
    (outputPath : String) : (RState × Option String) × String :=
  let r := addProductsTable cfg ts df.cols df.rows
  match r.2 with
  | some e => ((r.1, some e), outputPath)
  | none => ((outputDoc cfg ts r.1, none), outputPath)

/-- `generate_pdf_from_template(df, template_content, output_path)`:
the body ignores the template text and calls `generate_pdf_from_data`. -/
def generatePdfFromTemplate (cfg : Config) (ts : String) (df : DataFrame)
    (_templateContent : String) (outputPath : String) :
    (RState × Option String) × String :=
  generatePdfFromData cfg ts df outputPath

/-- Tags of the table content proper: everything except the page
furniture (title and footer bands) that `header`/`footer` add. -/
def keepTag : Tag → Bool
  | .title => false
  | .footer => false
  | _ => true

/-- The content record of one cell: its tag, text and shading flag,
or `none` for page furniture. -/
def contentProj (c : Cell) : Option (Tag × String × Bool) :=
  if keepTag c.tag then some (c.tag, c.text, c.fill) else none

/-- The table content of an instruction list, in emission order:
page furniture dropped, everything else projected to
(tag, text, shading). -/
def contentOf (l : List Cell) : List (Tag × String × Bool) :=
  l.filterMap contentProj

/-- The content the header-cell loop contributes from position `j` on. -/
def hdrBlock : Nat → List String → List (Tag × String × Bool)
  | _, [] => []
  | j, c :: rest => (.hdrCol j, trunc 15 c, true) :: hdrBlock (j + 1) rest

/-- The content the value-cell loop of row `i` contributes for the `k`
columns starting at position `j`. -/
def valBlock (fl : Bool) (i : Nat) (row : List String) :
    Nat → Nat → List (Tag × String × Bool)
  | _, 0 => []
  | j, k + 1 =>
      (.dataVal i j, trunc 20 (row.getD j ""), fl) :: valBlock fl i row (j + 1) k

/-- The content one data row contributes: its index cell then its `n`
value cells, all with the shading of `i % 2 == 0`. -/
def rowBlock (n i : Nat) (row : List String) : List (Tag × String × Bool) :=
  (.dataIdx i, toString (i + 1), i % 2 == 0) :: valBlock (i % 2 == 0) i row 0 n

/-- The content the row loop contributes from row counter `i` on. -/
def rowsBlocks (n : Nat) : Nat → List (List String) → List (Tag × String × Bool)
  | _, [] => []
  | i, row :: rest => rowBlock n i row ++ rowsBlocks n (i + 1) rest

theorem contentOf_append (l1 l2 : List Cell) :
    contentOf (l1 ++ l2) = contentOf l1 ++ contentOf l2 :=
  List.filterMap_append ..

theorem content_addPage (cfg : Config) (ts : String) (s : RState) :
    contentOf (addPage cfg ts s).instrs = contentOf s.instrs := by
  by_cases h : 0 < s.page <;>
    simp [addPage, h, contentOf, List.filterMap_append, contentProj, keepTag,
      footerCell, titleCell]

theorem contentOf_append_keep (l : List Cell) (c : Cell)
    (h : keepTag c.tag = true) :
    contentOf (l ++ [c]) = contentOf l ++ [(c.tag, c.text, c.fill)] := by
  simp [contentOf, List.filterMap_append, contentProj, h]

theorem content_cellF (cfg : Config) (ts : String) (w hh : ℚ) (txt : String)
    (fl : Bool) (tag : Tag) (nx : Bool) (s : RState) (htag : keepTag tag = true) :
    contentOf (cellF cfg ts w hh txt fl tag nx s).instrs
      = contentOf s.instrs ++ [(tag, txt, fl)] := by
  unfold cellF
  by_cases hbr : pbTrigger cfg < s.y + hh <;> by_cases hnx : nx = true <;>
    simp [hbr, hnx, contentOf_append_keep, content_addPage, htag]

theorem content_lnMove (cfg : Config) (dh : ℚ) (s : RState) :
    contentOf (lnMove cfg dh s).instrs = contentOf s.instrs := rfl

theorem content_emitHeaderCells (cfg : Config) (ts : String) (cw : ℚ) :
    ∀ (cols : List String) (j : Nat) (s : RState),
      contentOf (emitHeaderCells cfg ts cw j cols s).instrs
        = contentOf s.instrs ++ hdrBlock j cols
  | [], j, s => by simp [emitHeaderCells, hdrBlock]
  | c :: rest, j, s => by
      rw [emitHeaderCells, content_emitHeaderCells cfg ts cw rest (j + 1) _,
        content_cellF cfg ts cw 10 (trunc 15 c) true (.hdrCol j) false s rfl,
        hdrBlock, List.append_assoc, List.singleton_append]

theorem content_emitVals (cfg : Config) (ts : String) (cw : ℚ) (fl : Bool)
    (i : Nat) (row : List String) :
    ∀ (k j : Nat) (s : RState),
      contentOf (emitVals cfg ts cw fl i row j k s).instrs
        = contentOf s.instrs ++ valBlock fl i row j k
  | 0, j, s => by simp [emitVals, valBlock]
  | k + 1, j, s => by
      rw [emitVals, content_emitVals cfg ts cw fl i row k (j + 1) _,
        content_cellF cfg ts cw 8 (trunc 20 (row.getD j "")) fl (.dataVal i j) false s rfl,
        valBlock, List.append_assoc, List.singleton_append]

theorem content_emitRow (cfg : Config) (ts : String) (n : Nat) (cw : ℚ)
    (i : Nat) (row : List String) (s : RState) :
    contentOf (emitRow cfg ts n cw i row s).instrs
      = contentOf s.instrs ++ rowBlock n i row := by
  rw [emitRow, content_lnMove, content_emitVals,
    content_cellF cfg ts numColWidth 8 (toString (i + 1)) (i % 2 == 0) (.dataIdx i) false s rfl,
    rowBlock, List.append_assoc, List.singleton_append]

theorem content_emitRows (cfg : Config) (ts : String) (n : Nat) (cw : ℚ) :
    ∀ (rows : List (List String)) (i : Nat) (s : RState),
      contentOf (emitRows cfg ts n cw i rows s).instrs
        = contentOf s.instrs ++ rowsBlocks n i rows
  | [], i, s => by simp [emitRows, rowsBlocks]
  | row :: rest, i, s => by
      rw [emitRows, content_emitRows cfg ts n cw rest (i + 1) _,
        content_emitRow, rowsBlocks, List.append_assoc]

/-- Master characterization: the table content `add_products_table`
emits on a dataset with at least one column is the index-marker header
cell, the truncated column-name header cells, one block per data row
(1-based index text and 20-character-truncated values, shaded by row
parity), then the record-count summary — regardless of the page
geometry, which only decides where the dropped page furniture goes. -/
theorem content_addProductsTable (cfg : Config) (ts : String)
    (cols : List String) (rows : List (List String)) (h : cols.length ≠ 0) :
    contentOf (addProductsTable cfg ts cols rows).1.instrs
      = (.hdrIdx, "№", true) :: (hdrBlock 0 cols
          ++ rowsBlocks cols.length 0 rows
          ++ [(.summary, summaryText rows.length, false)]) := by
  unfold addProductsTable
  rw [if_neg h]
  dsimp only
  rw [content_cellF cfg ts 0 10 (summaryText rows.length) false .summary true _ rfl,
    content_lnMove, content_emitRows, content_lnMove, content_emitHeaderCells,
    content_cellF cfg ts numColWidth 10 "№" true .hdrIdx false _ rfl,
    content_addPage]
  simp [initState, contentOf]

/-- The index-cell texts of an instruction list, in emission order. -/
def dataIdxTexts (l : List Cell) : List String :=
  l.filterMap fun c =>
    match c.tag with
    | .dataIdx _ => some c.text
    | _ => none

/-- Projection selecting index-cell texts out of content records. -/
def gIdx (it : Tag × String × Bool) : Option String :=
  match it.1 with
  | .dataIdx _ => some it.2.1
  | _ => none

theorem dataIdxTexts_eq_contentOf (l : List Cell) :
    dataIdxTexts l = (contentOf l).filterMap gIdx := by
  unfold dataIdxTexts contentOf
  rw [List.filterMap_filterMap]
  have hfun : (fun c : Cell => (contentProj c).bind gIdx)
      = (fun c : Cell =>
          match c.tag with
          | .dataIdx _ => some c.text
          | _ => none) := by
    funext c
    cases htag : c.tag <;> simp [contentProj, keepTag, gIdx, htag]
  rw [hfun]

theorem gIdx_hdrBlock : ∀ (cols : List String) (j : Nat),
    (hdrBlock j cols).filterMap gIdx = []
  | [], _ => rfl
  | c :: rest, j => by
      simp [hdrBlock, gIdx, gIdx_hdrBlock rest (j + 1)]

theorem gIdx_valBlock (fl : Bool) (i : Nat) (row : List String) :
    ∀ (k j : Nat), (valBlock fl i row j k).filterMap gIdx = []
  | 0, _ => rfl
  | k + 1, j => by
      simp [valBlock, gIdx, gIdx_valBlock fl i row k (j + 1)]

theorem gIdx_rowsBlocks (n : Nat) :
    ∀ (rows : List (List String)) (i : Nat),
      (rowsBlocks n i rows).filterMap gIdx
        = (List.range' i rows.length).map (fun t => toString (t + 1))
  | [], _ => rfl
  | row :: rest, i => by
      simp [rowsBlocks, rowBlock, List.filterMap_append, gIdx, gIdx_valBlock,
        gIdx_rowsBlocks n rest (i + 1), List.range']

/-- C3: for every valid dataset the sequence of index-cell texts emitted
with the data rows is exactly `"1", "2", …, "n"` — the text of the cell
of the `i`-th row (0-based) is `toString (i + 1)`, 1-based, strictly
increasing over the whole table with no gaps and no reset at page
boundaries, whatever the dataset's own row labels were (the script never
reads the `idx` of `df.iterrows()`). -/
theorem claim_C3_index_column (cfg : Config) (ts : String) (cols : List String)
    (rows : List (List String)) (h : cols.length ≠ 0) :
    dataIdxTexts (addProductsTable cfg ts cols rows).1.instrs
      = (List.range rows.length).map (fun i => toString (i + 1)) := by
  rw [dataIdxTexts_eq_contentOf, content_addProductsTable cfg ts cols rows h,
    List.range_eq_range']
  simp [List.filterMap_append, gIdx, gIdx_hdrBlock, gIdx_rowsBlocks]

/-- Witness for C3 at a concrete two-row dataset. -/
theorem claim_C3_index_column_witness :
    (["Name"] : List String).length ≠ 0
    ∧ dataIdxTexts (addProductsTable cfg0 "T" ["Name"] [["a"], ["b"]]).1.instrs
        = (List.range ([["a"], ["b"]] : List (List String)).length).map
            (fun i => toString (i + 1)) :=
  ⟨by decide, claim_C3_index_column cfg0 "T" ["Name"] [["a"], ["b"]] (by decide)⟩

theorem mem_hdrBlock : ∀ (cols : List String) (j : Nat)
    (it : Tag × String × Bool), it ∈ hdrBlock j cols →
    ∃ j', it.1 = Tag.hdrCol j'
  | [], _, _, h => absurd h (List.not_mem_nil _)
  | c :: rest, j, it, h => by
      rcases List.mem_cons.mp h with h1 | h2
      · exact ⟨j, by rw [h1]⟩
      · exact mem_hdrBlock rest (j + 1) it h2

theorem mem_valBlock (fl : Bool) (i : Nat) (row : List String) :
    ∀ (k j : Nat) (it : Tag × String × Bool), it ∈ valBlock fl i row j k →
      ∃ j', it.1 = Tag.dataVal i j' ∧ it.2.2 = fl
  | 0, _, _, h => absurd h (List.not_mem_nil _)
  | k + 1, j, it, h => by
      rcases List.mem_cons.mp h with h1 | h2
      · exact ⟨j, by rw [h1], by rw [h1]⟩
      · exact mem_valBlock fl i row k (j + 1) it h2

theorem mem_rowsBlocks (n : Nat) : ∀ (rows : List (List String)) (i0 : Nat)
    (it : Tag × String × Bool), it ∈ rowsBlocks n i0 rows →
    ∃ i', (it.1 = Tag.dataIdx i' ∨ ∃ j, it.1 = Tag.dataVal i' j)
      ∧ it.2.2 = (i' % 2 == 0)
  | [], _, _, h => absurd h (List.not_mem_nil _)
  | row :: rest, i0, it, h => by
      rcases List.mem_append.mp (by simpa [rowsBlocks] using h) with h1 | h2
      · rcases List.mem_cons.mp h1 with h3 | h4
        · exact ⟨i0, Or.inl (by rw [h3]), by rw [h3]⟩
        · rcases mem_valBlock (i0 % 2 == 0) i0 row n 0 it h4 with ⟨j', hj, hfl⟩
          exact ⟨i0, Or.inr ⟨j', hj⟩, hfl⟩
      · exact mem_rowsBlocks n rest (i0 + 1) it h2

theorem mem_contentOf (c : Cell) (l : List Cell) (h : keepTag c.tag = true)
    (hm : c ∈ l) : (c.tag, c.text, c.fill) ∈ contentOf l :=
  List.mem_filterMap.mpr ⟨c, hm, by simp [contentProj, h]⟩

/-- C4: the shading flag of every data cell (index cell and value cells
alike) is exactly `i % 2 == 0` for the absolute 0-based row index `i` in
the full dataset — and the whole content sequence, shading included, is
the same under every page geometry and timestamp, so where the page
breaks fall can neither flip nor shift the parity of any row. -/
theorem claim_C4_row_shading :
    (∀ (cfg : Config) (ts : String) (cols : List String)
        (rows : List (List String)), cols.length ≠ 0 →
      ∀ c ∈ (addProductsTable cfg ts cols rows).1.instrs, ∀ i : Nat,
        (c.tag = Tag.dataIdx i ∨ ∃ j, c.tag = Tag.dataVal i j) →
        c.fill = (i % 2 == 0))
    ∧ (∀ (cfg cfg' : Config) (ts ts' : String) (cols : List String)
        (rows : List (List String)), cols.length ≠ 0 →
      contentOf (addProductsTable cfg ts cols rows).1.instrs
        = contentOf (addProductsTable cfg' ts' cols rows).1.instrs) := by
  constructor
  · intro cfg ts cols rows h c hc i hdata
    have hkeep : keepTag c.tag = true := by
      rcases hdata with h1 | ⟨j, h1⟩ <;> rw [h1] <;> rfl
    have hmem := mem_contentOf c _ hkeep hc
    rw [content_addProductsTable cfg ts cols rows h] at hmem
    rcases List.mem_cons.mp hmem with h1 | h1
    · rcases hdata with h2 | ⟨j, h2⟩ <;> rw [h2] at h1 <;> simp at h1
    rcases List.mem_append.mp h1 with h2 | h2
    rcases List.mem_append.mp h2 with h3 | h3
    · rcases mem_hdrBlock cols 0 _ h3 with ⟨j', hj⟩
      rcases hdata with h4 | ⟨j, h4⟩ <;> rw [h4] at hj <;> exact absurd hj (by simp)
    · rcases mem_rowsBlocks cols.length rows 0 _ h3 with ⟨i', hi, hfl⟩
      have hii : i' = i := by
        rcases hdata with h4 | ⟨j, h4⟩ <;> rcases hi with h5 | ⟨j', h5⟩ <;>
          rw [h4] at h5 <;> simp at h5 <;> omega
      rw [← hii]
      exact hfl
    · have h5 := List.mem_singleton.mp h2
      rcases hdata with h4 | ⟨j, h4⟩ <;> rw [h4] at h5 <;> simp at h5
  · intro cfg cfg' ts ts' cols rows h
    rw [content_addProductsTable cfg ts cols rows h,
      content_addProductsTable cfg' ts' cols rows h]

set_option maxRecDepth 400000 in
/-- Witness for C4: the shading of both rows of a concrete dataset, and
the content agreement between two different geometries. -/
theorem claim_C4_row_shading_witness :
    ((["Name"] : List String).length ≠ 0
      ∧ ({ page := 1, x := 10, y := 43, w := 12, h := 8, text := "2",
           fill := false, tag := Tag.dataIdx 1 } : Cell)
          ∈ (addProductsTable cfg0 "T" ["Name"] [["a"], ["b"]]).1.instrs
      ∧ ({ page := 1, x := 10, y := 43, w := 12, h := 8, text := "2",
           fill := false, tag := Tag.dataIdx 1 } : Cell).fill = (1 % 2 == 0))
    ∧ contentOf (addProductsTable cfg0 "T" ["Name"] [["a"], ["b"]]).1.instrs
        = contentOf (addProductsTable cfg0 "S" ["Name"] [["a"], ["b"]]).1.instrs := by
  constructor
  · refine ⟨by decide, of_decide_eq_true (by with_unfolding_all rfl), ?_⟩
    exact claim_C4_row_shading.1 cfg0 "T" ["Name"] [["a"], ["b"]] (by decide) _
      (of_decide_eq_true (by with_unfolding_all rfl)) 1 (Or.inl rfl)
  · exact claim_C4_row_shading.2 cfg0 cfg0 "T" "S" ["Name"] [["a"], ["b"]] (by decide)

/-- C5: on every valid dataset the content stream ends with exactly one
summary band, and its text is the record-count line for the number of
rows of the dataset; nothing emitted before it is a summary band. -/
theorem claim_C5_summary_band (cfg : Config) (ts : String) (cols : List String)
    (rows : List (List String)) (h : cols.length ≠ 0) :
    ∃ l, contentOf (addProductsTable cfg ts cols rows).1.instrs
        = l ++ [(Tag.summary, summaryText rows.length, false)]
      ∧ ∀ it ∈ l, it.1 ≠ Tag.summary := by
  refine ⟨(Tag.hdrIdx, "№", true)
      :: (hdrBlock 0 cols ++ rowsBlocks cols.length 0 rows), ?_, ?_⟩
  · rw [content_addProductsTable cfg ts cols rows h]
    simp
  · intro it hit
    rcases List.mem_cons.mp hit with h1 | h1
    · rw [h1]; simp
    rcases List.mem_append.mp h1 with h2 | h2
    · rcases mem_hdrBlock cols 0 _ h2 with ⟨j', hj⟩
      rw [hj]; simp
    · rcases mem_rowsBlocks cols.length rows 0 _ h2 with ⟨i', hi, _⟩
      rcases hi with h3 | ⟨j, h3⟩ <;> rw [h3] <;> simp

/-- Witness for C5 at a concrete three-row dataset. -/
theorem claim_C5_summary_band_witness :
    (["Name", "Price"] : List String).length ≠ 0
    ∧ ∃ l, contentOf (addProductsTable cfg0 "T" ["Name", "Price"]
          [["Widget", "9.99"], ["Gadget", "19.99"], ["Gizmo", "29.99"]]).1.instrs
        = l ++ [(Tag.summary,
            summaryText ([["Widget", "9.99"], ["Gadget", "19.99"],
              ["Gizmo", "29.99"]] : List (List String)).length, false)]
      ∧ ∀ it ∈ l, it.1 ≠ Tag.summary :=
  ⟨by decide, claim_C5_summary_band cfg0 "T" ["Name", "Price"]
    [["Widget", "9.99"], ["Gadget", "19.99"], ["Gizmo", "29.99"]] (by decide)⟩

/-- C6: for every column count `n ≥ 1` the index-column width plus the
`n` equal data-column widths `(190 - 12) / n` add up to at most the
total content width 190 (they add up to exactly 190). -/
theorem claim_C6_width_sum (n : Nat) (h : 1 ≤ n) :
    numColWidth + (n : ℚ) * colWidth n ≤ availableWidth := by
  have hn : (n : ℚ) ≠ 0 := Nat.cast_ne_zero.mpr (by omega)
  simp only [colWidth, numColWidth, availableWidth]
  rw [mul_comm, div_mul_cancel₀ _ hn]
  norm_num

/-- Witness for C6 at four columns. -/
theorem claim_C6_width_sum_witness :
    1 ≤ 4 ∧ numColWidth + (4 : ℚ) * colWidth 4 ≤ availableWidth :=
  ⟨by norm_num, by
    have := claim_C6_width_sum 4 (by norm_num)
    simpa using this⟩

/-- C7: truncation (`s[:k]`, silent, no ellipsis) is deterministic —
it is a function — and idempotent: truncating twice equals truncating
once, and a string within the limit is returned unaltered; the script
uses it with `k = 15` for column names and `k = 20` for cell values. -/
theorem claim_C7_truncation (k : Nat) (s : String) :
    trunc k (trunc k s) = trunc k s ∧ (s.length ≤ k → trunc k s = s) := by
  constructor
  · show (⟨(s.data.take k).take k⟩ : String) = ⟨s.data.take k⟩
    rw [List.take_take, min_self]
  · intro hlen
    cases s with
    | mk data =>
      show (⟨data.take k⟩ : String) = ⟨data⟩
      rw [List.take_of_length_le hlen]

/-- Witness for C7 at the header limit 15 on a short string. -/
theorem claim_C7_truncation_witness :
    trunc 15 (trunc 15 "Name") = trunc 15 "Name"
    ∧ ("Name" : String).length ≤ 15 ∧ trunc 15 "Name" = "Name" :=
  ⟨(claim_C7_truncation 15 "Name").1, by decide,
    (claim_C7_truncation 15 "Name").2 (by decide)⟩

/-- C9: `add_products_table` only reads the dataset (`df.columns`,
`df.iterrows()`, `len(df)`); run as a transition on the world holding
the dataset and the drawing state, it returns the caller's dataset
untouched — columns, row order and every cell value included. -/
theorem claim_C9_dataset_immutable (cfg : Config) (ts : String) (w : World) :
    ((addProductsTableW cfg ts w).1).df = w.df := rfl

/-- C10: the template path delegates to the data path ignoring the
template text entirely, so for any two template contents the produced
document — title band included — is identical, and equal to the direct
data path's. -/
theorem claim_C10_template_ignored (cfg : Config) (ts : String)
    (df : DataFrame) (t1 t2 : String) (out : String) :
    generatePdfFromTemplate cfg ts df t1 out
        = generatePdfFromData cfg ts df out
    ∧ generatePdfFromTemplate cfg ts df t1 out
        = generatePdfFromTemplate cfg ts df t2 out :=
  ⟨rfl, rfl⟩

/-- C2 counterexample: on the zero-column dataset the layout raises a
division-by-zero error, not a validated `InvalidInput`, and the emitted
instruction list at that point is not empty — a page was already opened
and its title band drawn. -/
theorem claim_C2_counterexample :
    (addProductsTable cfg0 "2024" [] []).2 ≠ some "InvalidInput"
    ∧ (addProductsTable cfg0 "2024" [] []).1.instrs ≠ [] :=
  ⟨of_decide_eq_true (by with_unfolding_all rfl),
    of_decide_eq_true (by with_unfolding_all rfl)⟩

/-- C2 as amended: a zero-column dataset makes the layout fail with
`ZeroDivisionError` at the column-width division; the failure happens
after `add_page()` has already run, so exactly one band — the first
page's title — has been emitted when the error propagates.  (The total
width is the hard-coded positive constant 190 and is never validated.) -/
theorem claim_C2_amended (cfg : Config) (ts : String)
    (rows : List (List String)) :
    addProductsTable cfg ts [] rows
      = ({ page := 1, x := cfg.lMargin, y := cfg.tMargin + 10 + 5,
           instrs := [titleCell cfg 1] },
         some "ZeroDivisionError: division by zero") := by
  simp [addProductsTable, addPage, initState]

/-- The table-header band tags: the `№` marker cell and the column-name
cells. -/
def isHeaderBand : Tag → Bool
  | .hdrIdx => true
  | .hdrCol _ => true
  | _ => false

/-- The cells belonging to data row `i`: its index cell or one of its
value cells. -/
def rowTagged (i : Nat) (c : Cell) : Prop :=
  c.tag = Tag.dataIdx i ∨ ∃ j, c.tag = Tag.dataVal i j

theorem instrs_lnMove (cfg : Config) (dh : ℚ) (s : RState) :
    (lnMove cfg dh s).instrs = s.instrs := rfl

/-- The cell a `cell(w, h, …)` call emits when the cursor stands at
`(x0, y0)` on page `p` (width `0` stretches to the right margin). -/
def emittedAt (cfg : Config) (w hh : ℚ) (txt : String) (fl : Bool) (tag : Tag)
    (p : Nat) (x0 y0 : ℚ) : Cell :=
  { page := p, x := x0, y := y0
    w := if w = 0 then cfg.pageW - cfg.rMargin - x0 else w
    h := hh, text := txt, fill := fl, tag := tag }

theorem cellF_fit_false (cfg : Config) (ts : String) (w hh : ℚ) (txt : String)
    (fl : Bool) (tag : Tag) (s : RState) (h : ¬ pbTrigger cfg < s.y + hh) :
    cellF cfg ts w hh txt fl tag false s
      = { page := s.page
          x := s.x + (if w = 0 then cfg.pageW - cfg.rMargin - s.x else w)
          y := s.y
          instrs := s.instrs ++ [emittedAt cfg w hh txt fl tag s.page s.x s.y] } := by
  simp [cellF, h, emittedAt]

theorem cellF_break_false (cfg : Config) (ts : String) (w hh : ℚ) (txt : String)
    (fl : Bool) (tag : Tag) (s : RState) (h : pbTrigger cfg < s.y + hh) :
    cellF cfg ts w hh txt fl tag false s
      = { page := s.page + 1
          x := s.x + (if w = 0 then cfg.pageW - cfg.rMargin - s.x else w)
          y := cfg.tMargin + 10 + 5
          instrs := (if 0 < s.page then s.instrs ++ [footerCell cfg ts s.page]
              else s.instrs)
            ++ [titleCell cfg (s.page + 1)]
            ++ [emittedAt cfg w hh txt fl tag (s.page + 1) s.x
                  (cfg.tMargin + 10 + 5)] } := by
  by_cases hp : 0 < s.page <;> simp [cellF, h, hp, addPage, emittedAt]

theorem cellF_tags (cfg : Config) (ts : String) (w hh : ℚ) (txt : String)
    (fl : Bool) (tag : Tag) (nx : Bool) (s : RState) :
    ∃ δ, (cellF cfg ts w hh txt fl tag nx s).instrs = s.instrs ++ δ
      ∧ ∀ c ∈ δ, c.tag = tag ∨ c.tag = Tag.title ∨ c.tag = Tag.footer := by
  by_cases h : pbTrigger cfg < s.y + hh
  · refine ⟨(if 0 < s.page then [footerCell cfg ts s.page] else [])
        ++ [titleCell cfg (s.page + 1)]
        ++ [emittedAt cfg w hh txt fl tag (s.page + 1) s.x
              (cfg.tMargin + 10 + 5)], ?_, ?_⟩
    · by_cases hnx : nx = true <;> by_cases hp : 0 < s.page <;>
        simp [cellF, h, hnx, hp, addPage, emittedAt]
    · intro c hc
      by_cases hp : 0 < s.page
      · simp [hp] at hc
        rcases hc with rfl | rfl | rfl <;> simp [footerCell, titleCell, emittedAt]
      · simp [hp] at hc
        rcases hc with rfl | rfl <;> simp [titleCell, emittedAt]
  · refine ⟨[emittedAt cfg w hh txt fl tag s.page s.x s.y], ?_, ?_⟩
    · by_cases hnx : nx = true <;> simp [cellF, h, hnx, emittedAt]
    · intro c hc
      simp at hc
      rw [hc]
      simp [emittedAt]

theorem emitHeaderCells_pages (cfg : Config) (ts : String) (cw : ℚ) :
    ∀ (cols : List String) (j : Nat) (s : RState),
      ¬ pbTrigger cfg < s.y + 10 →
      (emitHeaderCells cfg ts cw j cols s).page = s.page
      ∧ (emitHeaderCells cfg ts cw j cols s).y = s.y
      ∧ ∃ δ, (emitHeaderCells cfg ts cw j cols s).instrs = s.instrs ++ δ
          ∧ ∀ c ∈ δ, c.page = s.page ∧ ∃ j', c.tag = Tag.hdrCol j'
  | [], j, s, _ => ⟨rfl, rfl, [], by simp [emitHeaderCells], by simp⟩
  | c :: rest, j, s, h => by
      rw [emitHeaderCells,
        cellF_fit_false cfg ts cw 10 (trunc 15 c) true (.hdrCol j) s h]
      obtain ⟨hp, hy, δ, hδ, hprop⟩ :=
        emitHeaderCells_pages cfg ts cw rest (j + 1)
          { page := s.page
            x := s.x + (if cw = 0 then cfg.pageW - cfg.rMargin - s.x else cw)
            y := s.y
            instrs := s.instrs
              ++ [emittedAt cfg cw 10 (trunc 15 c) true (.hdrCol j) s.page s.x s.y] }
          h
      refine ⟨hp, hy,
        emittedAt cfg cw 10 (trunc 15 c) true (.hdrCol j) s.page s.x s.y :: δ,
        ?_, ?_⟩
      · rw [hδ]
        simp
      · intro c' hc'
        rcases List.mem_cons.mp hc' with h1 | h1
        · rw [h1]
          exact ⟨rfl, j, rfl⟩
        · exact hprop c' h1

theorem emitVals_pages (cfg : Config) (ts : String) (cw : ℚ) (fl : Bool)
    (i : Nat) (row : List String) :
    ∀ (k j : Nat) (s : RState),
      ¬ pbTrigger cfg < s.y + 8 →
      (emitVals cfg ts cw fl i row j k s).page = s.page
      ∧ (emitVals cfg ts cw fl i row j k s).y = s.y
      ∧ ∃ δ, (emitVals cfg ts cw fl i row j k s).instrs = s.instrs ++ δ
          ∧ ∀ c ∈ δ, c.page = s.page ∧ ∃ j', c.tag = Tag.dataVal i j'
  | 0, j, s, _ => ⟨rfl, rfl, [], by simp [emitVals], by simp⟩
  | k + 1, j, s, h => by
      rw [emitVals,
        cellF_fit_false cfg ts cw 8 (trunc 20 (row.getD j "")) fl (.dataVal i j) s h]
      obtain ⟨hp, hy, δ, hδ, hprop⟩ :=
        emitVals_pages cfg ts cw fl i row k (j + 1)
          { page := s.page
            x := s.x + (if cw = 0 then cfg.pageW - cfg.rMargin - s.x else cw)
            y := s.y
            instrs := s.instrs
              ++ [emittedAt cfg cw 8 (trunc 20 (row.getD j "")) fl (.dataVal i j)
                    s.page s.x s.y] }
          h
      refine ⟨hp, hy,
        emittedAt cfg cw 8 (trunc 20 (row.getD j "")) fl (.dataVal i j) s.page s.x s.y
          :: δ, ?_, ?_⟩
      · rw [hδ]
        simp
      · intro c' hc'
        rcases List.mem_cons.mp hc' with h1 | h1
        · rw [h1]
          exact ⟨rfl, j, rfl⟩
        · exact hprop c' h1

theorem rowTagged_index (c : Cell) (i i0 : Nat)
    (ht : c.tag = Tag.dataIdx i0 ∨ (∃ j, c.tag = Tag.dataVal i0 j)
      ∨ c.tag = Tag.title ∨ c.tag = Tag.footer)
    (hr : rowTagged i c) : i = i0 := by
  rcases hr with h1 | ⟨j, h1⟩ <;>
    rcases ht with h2 | ⟨j', h2⟩ | h2 | h2 <;>
    rw [h1] at h2 <;> simp at h2 <;> omega

theorem emitRow_pages (cfg : Config) (ts : String) (n : Nat) (cw : ℚ)
    (i : Nat) (row : List String) (s : RState)
    (hTop : ¬ pbTrigger cfg < cfg.tMargin + 10 + 5 + 8) :
    ∃ p δ, (emitRow cfg ts n cw i row s).instrs = s.instrs ++ δ
      ∧ (∀ c ∈ δ, rowTagged i c → c.page = p)
      ∧ (∀ c ∈ δ, c.tag = Tag.dataIdx i ∨ (∃ j, c.tag = Tag.dataVal i j)
          ∨ c.tag = Tag.title ∨ c.tag = Tag.footer) := by
  unfold emitRow
  rw [instrs_lnMove]
  by_cases hbr : pbTrigger cfg < s.y + 8
  · rw [cellF_break_false cfg ts numColWidth 8 (toString (i + 1)) (i % 2 == 0)
      (.dataIdx i) s hbr]
    obtain ⟨hp, hy, δ', hδ', hprop⟩ :=
      emitVals_pages cfg ts cw (i % 2 == 0) i row n 0
        { page := s.page + 1
          x := s.x + (if numColWidth = 0 then cfg.pageW - cfg.rMargin - s.x
            else numColWidth)
          y := cfg.tMargin + 10 + 5
          instrs := (if 0 < s.page then s.instrs ++ [footerCell cfg ts s.page]
              else s.instrs)
            ++ [titleCell cfg (s.page + 1)]
            ++ [emittedAt cfg numColWidth 8 (toString (i + 1)) (i % 2 == 0)
                  (.dataIdx i) (s.page + 1) s.x (cfg.tMargin + 10 + 5)] }
        hTop
    refine ⟨s.page + 1,
      (if 0 < s.page then [footerCell cfg ts s.page] else [])
        ++ [titleCell cfg (s.page + 1)]
        ++ [emittedAt cfg numColWidth 8 (toString (i + 1)) (i % 2 == 0)
              (.dataIdx i) (s.page + 1) s.x (cfg.tMargin + 10 + 5)]
        ++ δ', ?_, ?_, ?_⟩
    · rw [hδ']
      by_cases hp0 : 0 < s.page <;> simp [hp0]
    · intro c hc hr
      rcases List.mem_append.mp hc with h1 | h1
      · rcases List.mem_append.mp h1 with h2 | h2
        · rcases List.mem_append.mp h2 with h3 | h3
          · by_cases hp0 : 0 < s.page <;> simp [hp0] at h3
            rw [h3] at hr
            rcases hr with h4 | ⟨j, h4⟩ <;> simp [footerCell] at h4
          · rw [List.mem_singleton.mp h3] at hr
            rcases hr with h4 | ⟨j, h4⟩ <;> simp [titleCell] at h4
        · rw [List.mem_singleton.mp h2]
          rfl
      · exact (hprop c h1).1
    · intro c hc
      rcases List.mem_append.mp hc with h1 | h1
      · rcases List.mem_append.mp h1 with h2 | h2
        · rcases List.mem_append.mp h2 with h3 | h3
          · by_cases hp0 : 0 < s.page <;> simp [hp0] at h3
            rw [h3]
            simp [footerCell]
          · rw [List.mem_singleton.mp h3]
            simp [titleCell]
        · rw [List.mem_singleton.mp h2]
          exact Or.inl rfl
      · rcases (hprop c h1).2 with ⟨j', hj⟩
        exact Or.inr (Or.inl ⟨j', hj⟩)
  · rw [cellF_fit_false cfg ts numColWidth 8 (toString (i + 1)) (i % 2 == 0)
      (.dataIdx i) s hbr]
    obtain ⟨hp, hy, δ', hδ', hprop⟩ :=
      emitVals_pages cfg ts cw (i % 2 == 0) i row n 0
        { page := s.page
          x := s.x + (if numColWidth = 0 then cfg.pageW - cfg.rMargin - s.x
            else numColWidth)
          y := s.y
          instrs := s.instrs
            ++ [emittedAt cfg numColWidth 8 (toString (i + 1)) (i % 2 == 0)
                  (.dataIdx i) s.page s.x s.y] }
        hbr
    refine ⟨s.page,
      [emittedAt cfg numColWidth 8 (toString (i + 1)) (i % 2 == 0)
          (.dataIdx i) s.page s.x s.y] ++ δ', ?_, ?_, ?_⟩
    · rw [hδ']
      simp
    · intro c hc hr
      rcases List.mem_append.mp hc with h1 | h1
      · rw [List.mem_singleton.mp h1]
        rfl
      · exact (hprop c h1).1
    · intro c hc
      rcases List.mem_append.mp hc with h1 | h1
      · rw [List.mem_singleton.mp h1]
        exact Or.inl rfl
      · rcases (hprop c h1).2 with ⟨j', hj⟩
        exact Or.inr (Or.inl ⟨j', hj⟩)

/-- No cell of the list belongs to a data row with index `i0` or later. -/
def freshRows (i0 : Nat) (l : List Cell) : Prop :=
  ∀ c ∈ l, ∀ i, rowTagged i c → i < i0

/-- Any two cells of the same data row sit on the same page. -/
def rowsCoherent (l : List Cell) : Prop :=
  ∀ i : Nat, ∀ c ∈ l, ∀ c' ∈ l, rowTagged i c → rowTagged i c' → c.page = c'.page

theorem rowsCoherent_append_nonrow (l δ : List Cell) (h : rowsCoherent l)
    (hδ : ∀ c ∈ δ, ∀ i, ¬ rowTagged i c) : rowsCoherent (l ++ δ) := by
  intro i c hc c' hc' hr hr'
  rcases List.mem_append.mp hc with h1 | h1
  · rcases List.mem_append.mp hc' with h2 | h2
    · exact h i c h1 c' h2 hr hr'
    · exact absurd hr' (hδ c' h2 i)
  · exact absurd hr (hδ c h1 i)

theorem emitRows_coherent (cfg : Config) (ts : String) (n : Nat) (cw : ℚ)
    (hTop : ¬ pbTrigger cfg < cfg.tMargin + 10 + 5 + 8) :
    ∀ (rows : List (List String)) (i0 : Nat) (s : RState),
      freshRows i0 s.instrs → rowsCoherent s.instrs →
      freshRows (i0 + rows.length) (emitRows cfg ts n cw i0 rows s).instrs
      ∧ rowsCoherent (emitRows cfg ts n cw i0 rows s).instrs
  | [], i0, s, hf, hc => by
      rw [emitRows]
      simpa using ⟨hf, hc⟩
  | row :: rest, i0, s, hf, hc => by
      rw [emitRows]
      obtain ⟨p, δ, hδ, hpage, htags⟩ := emitRow_pages cfg ts n cw i0 row s hTop
      have hf' : freshRows (i0 + 1) (emitRow cfg ts n cw i0 row s).instrs := by
        rw [hδ]
        intro c hmem i hr
        rcases List.mem_append.mp hmem with h1 | h1
        · exact Nat.lt_succ_of_lt (hf c h1 i hr)
        · have := rowTagged_index c i i0 (htags c h1) hr
          omega
      have hc' : rowsCoherent (emitRow cfg ts n cw i0 row s).instrs := by
        rw [hδ]
        intro i c hmem c' hmem' hr hr'
        rcases List.mem_append.mp hmem with h1 | h1 <;>
          rcases List.mem_append.mp hmem' with h2 | h2
        · exact hc i c h1 c' h2 hr hr'
        · have hi1 := hf c h1 i hr
          have hi2 := rowTagged_index c' i i0 (htags c' h2) hr'
          omega
        · have hi1 := hf c' h2 i hr'
          have hi2 := rowTagged_index c i i0 (htags c h1) hr
          omega
        · have he := rowTagged_index c i i0 (htags c h1) hr
          have he' := rowTagged_index c' i i0 (htags c' h2) hr'
          rw [hpage c h1 (he ▸ hr), hpage c' h2 (he' ▸ hr')]
      obtain ⟨hf2, hc2⟩ :=
        emitRows_coherent cfg ts n cw hTop rest (i0 + 1)
          (emitRow cfg ts n cw i0 row s) hf' hc'
      constructor
      · intro c hmem i hr
        have := hf2 c hmem i hr
        simp only [List.length_cons]
        omega
      · exact hc2

theorem emitRows_tags (cfg : Config) (ts : String) (n : Nat) (cw : ℚ)
    (hTop : ¬ pbTrigger cfg < cfg.tMargin + 10 + 5 + 8) :
    ∀ (rows : List (List String)) (i0 : Nat) (s : RState),
      ∃ δ, (emitRows cfg ts n cw i0 rows s).instrs = s.instrs ++ δ
        ∧ ∀ c ∈ δ, (∃ i', c.tag = Tag.dataIdx i' ∨ ∃ j, c.tag = Tag.dataVal i' j)
            ∨ c.tag = Tag.title ∨ c.tag = Tag.footer
  | [], i0, s => ⟨[], by simp [emitRows], by simp⟩
  | row :: rest, i0, s => by
      rw [emitRows]
      obtain ⟨p, δ1, hδ1, _, htags⟩ := emitRow_pages cfg ts n cw i0 row s hTop
      obtain ⟨δ2, hδ2, htags2⟩ :=
        emitRows_tags cfg ts n cw hTop rest (i0 + 1) (emitRow cfg ts n cw i0 row s)
      refine ⟨δ1 ++ δ2, ?_, ?_⟩
      · rw [hδ2, hδ1, List.append_assoc]
      · intro c hc
        rcases List.mem_append.mp hc with h1 | h1
        · rcases htags c h1 with h2 | ⟨j, h2⟩ | h2 | h2
          · exact Or.inl ⟨i0, Or.inl h2⟩
          · exact Or.inl ⟨i0, Or.inr ⟨j, h2⟩⟩
          · exact Or.inr (Or.inl h2)
          · exact Or.inr (Or.inr h2)
        · exact htags2 c h1

theorem addPage_init (cfg : Config) (ts : String) :
    addPage cfg ts (initState cfg)
      = { page := 1, x := cfg.lMargin, y := cfg.tMargin + 10 + 5
          instrs := [titleCell cfg 1] } := by
  simp [addPage, initState]

theorem cfg0_fit10 : ¬ pbTrigger cfg0 < cfg0.tMargin + 10 + 5 + 10 := by
  norm_num [pbTrigger, cfg0]

theorem cfg0_fit8 : ¬ pbTrigger cfg0 < cfg0.tMargin + 10 + 5 + 8 := by
  norm_num [pbTrigger, cfg0]

theorem tablePhase_coherent (ts : String) (cols : List String)
    (rows : List (List String)) (cw : ℚ) (s1 : RState)
    (hy : s1.y = cfg0.tMargin + 10 + 5)
    (htags : ∀ c ∈ s1.instrs, ∀ i, ¬ rowTagged i c) :
    rowsCoherent (cellF cfg0 ts 0 10 (summaryText rows.length) false .summary true
      (lnMove cfg0 5 (emitRows cfg0 ts cols.length cw 0 rows
        (lnMove cfg0 10 (emitHeaderCells cfg0 ts cw 0 cols s1))))).instrs := by
  obtain ⟨hp2, hy2, δh, hδh, hhdr⟩ :=
    emitHeaderCells_pages cfg0 ts cw cols 0 s1 (by rw [hy]; exact cfg0_fit10)
  have h3 : (lnMove cfg0 10 (emitHeaderCells cfg0 ts cw 0 cols s1)).instrs
      = s1.instrs ++ δh := by
    rw [instrs_lnMove, hδh]
  have hfresh3 : freshRows 0
      (lnMove cfg0 10 (emitHeaderCells cfg0 ts cw 0 cols s1)).instrs := by
    rw [h3]
    intro c hc i hr
    rcases List.mem_append.mp hc with h1 | h1
    · exact absurd hr (htags c h1 i)
    · rcases (hhdr c h1).2 with ⟨j', hj⟩
      rcases hr with h4 | ⟨j, h4⟩ <;> rw [hj] at h4 <;> simp at h4
  have hcoh3 : rowsCoherent
      (lnMove cfg0 10 (emitHeaderCells cfg0 ts cw 0 cols s1)).instrs := by
    intro i c hc c' hc' hr hr'
    exact absurd (hfresh3 c hc i hr) (by omega)
  obtain ⟨_, hcoh4⟩ :=
    emitRows_coherent cfg0 ts cols.length cw cfg0_fit8 rows 0
      (lnMove cfg0 10 (emitHeaderCells cfg0 ts cw 0 cols s1)) hfresh3 hcoh3
  obtain ⟨δs, hδs, hstag⟩ :=
    cellF_tags cfg0 ts 0 10 (summaryText rows.length) false .summary true
      (lnMove cfg0 5 (emitRows cfg0 ts cols.length cw 0 rows
        (lnMove cfg0 10 (emitHeaderCells cfg0 ts cw 0 cols s1))))
  rw [hδs, instrs_lnMove]
  refine rowsCoherent_append_nonrow _ δs hcoh4 ?_
  intro c hc i hr
  rcases hstag c hc with h1 | h1 | h1 <;>
    rcases hr with h4 | ⟨j, h4⟩ <;> rw [h1] at h4 <;> simp at h4

/-- C8: the page-break check happens only between rows, never inside
one: all cells emitted for one data row — its index cell and every one
of its value cells — carry the same page number, for every dataset
rendered at the script's geometry. -/
theorem claim_C8_no_row_split (ts : String) (cols : List String)
    (rows : List (List String)) :
    ∀ i : Nat, ∀ c ∈ (addProductsTable cfg0 ts cols rows).1.instrs,
      ∀ c' ∈ (addProductsTable cfg0 ts cols rows).1.instrs,
      rowTagged i c → rowTagged i c' → c.page = c'.page := by
  by_cases hn : cols.length = 0
  · have heq : (addProductsTable cfg0 ts cols rows).1.instrs
        = [titleCell cfg0 1] := by
      unfold addProductsTable
      rw [if_pos hn]
      simp [addPage_init]
    rw [heq]
    intro i c hc c' hc' hr hr'
    rw [List.mem_singleton.mp hc] at hr
    rcases hr with h | ⟨j, h⟩ <;> simp [titleCell] at h
  · have hs1 : cellF cfg0 ts numColWidth 10 "№" true Tag.hdrIdx false
        (addPage cfg0 ts (initState cfg0))
        = { page := 1
            x := cfg0.lMargin + numColWidth
            y := cfg0.tMargin + 10 + 5
            instrs := [titleCell cfg0 1,
              emittedAt cfg0 numColWidth 10 "№" true Tag.hdrIdx 1 cfg0.lMargin
                (cfg0.tMargin + 10 + 5)] } := by
      rw [cellF_fit_false cfg0 ts numColWidth 10 "№" true Tag.hdrIdx _
        (by rw [addPage_init cfg0 ts]; exact cfg0_fit10), addPage_init cfg0 ts]
      norm_num [numColWidth]
    have hcoh : rowsCoherent (addProductsTable cfg0 ts cols rows).1.instrs := by
      unfold addProductsTable
      rw [if_neg hn]
      dsimp only
      rw [hs1]
      refine tablePhase_coherent ts cols rows (colWidth cols.length) _ rfl ?_
      intro c hc i hr
      rcases List.mem_cons.mp hc with h1 | h1
      · rw [h1] at hr
        rcases hr with h4 | ⟨j, h4⟩ <;> simp [titleCell] at h4
      · rw [List.mem_singleton.mp h1] at hr
        rcases hr with h4 | ⟨j, h4⟩ <;> simp [emittedAt] at h4
    exact hcoh

set_option maxRecDepth 400000 in
/-- Witness for C8: the index cell and the value cell of the single data
row of a concrete dataset, shown to lie on the same page by the theorem. -/
theorem claim_C8_no_row_split_witness :
    (({ page := 1, x := 10, y := 35, w := 12, h := 8, text := "1",
         fill := true, tag := Tag.dataIdx 0 } : Cell)
        ∈ (addProductsTable cfg0 "T" ["A"] [["x"]]).1.instrs
      ∧ ({ page := 1, x := 22, y := 35, w := 178, h := 8, text := "x",
           fill := true, tag := Tag.dataVal 0 0 } : Cell)
        ∈ (addProductsTable cfg0 "T" ["A"] [["x"]]).1.instrs)
    ∧ ({ page := 1, x := 10, y := 35, w := 12, h := 8, text := "1",
         fill := true, tag := Tag.dataIdx 0 } : Cell).page
      = ({ page := 1, x := 22, y := 35, w := 178, h := 8, text := "x",
           fill := true, tag := Tag.dataVal 0 0 } : Cell).page :=
  ⟨⟨of_decide_eq_true (by with_unfolding_all rfl),
    of_decide_eq_true (by with_unfolding_all rfl)⟩,
    claim_C8_no_row_split "T" ["A"] [["x"]] 0 _
      (of_decide_eq_true (by with_unfolding_all rfl)) _
      (of_decide_eq_true (by with_unfolding_all rfl))
      (Or.inl rfl) (Or.inr ⟨0, rfl⟩)⟩

/-- Every band of the list shares its page with some title band of the
list: each referenced page carries the page-title furniture. -/
def titled (l : List Cell) : Prop :=
  ∀ c ∈ l, ∃ t ∈ l, t.tag = Tag.title ∧ t.page = c.page

/-- Invariant of the drawing state once the first page is open: a page
is open, every emitted band sits on a titled page, and the current page
already has its title band. -/
def docTitled (s : RState) : Prop :=
  0 < s.page ∧ titled s.instrs
    ∧ ∃ t ∈ s.instrs, t.tag = Tag.title ∧ t.page = s.page

theorem cellF_cases (cfg : Config) (ts : String) (w hh : ℚ) (txt : String)
    (fl : Bool) (tag : Tag) (nx : Bool) (s : RState) :
    (¬ pbTrigger cfg < s.y + hh
      ∧ (cellF cfg ts w hh txt fl tag nx s).page = s.page
      ∧ (cellF cfg ts w hh txt fl tag nx s).instrs
          = s.instrs ++ [emittedAt cfg w hh txt fl tag s.page s.x s.y])
    ∨ (pbTrigger cfg < s.y + hh
      ∧ (cellF cfg ts w hh txt fl tag nx s).page = s.page + 1
      ∧ (cellF cfg ts w hh txt fl tag nx s).instrs
          = (if 0 < s.page then s.instrs ++ [footerCell cfg ts s.page]
              else s.instrs)
            ++ [titleCell cfg (s.page + 1)]
            ++ [emittedAt cfg w hh txt fl tag (s.page + 1) s.x
                  (cfg.tMargin + 10 + 5)]) := by
  by_cases hbr : pbTrigger cfg < s.y + hh
  · right
    refine ⟨hbr, ?_, ?_⟩ <;> by_cases hnx : nx = true <;>
      by_cases hp : 0 < s.page <;>
      simp [cellF, hbr, hnx, hp, addPage, emittedAt]
  · left
    refine ⟨hbr, ?_, ?_⟩ <;> by_cases hnx : nx = true <;>
      simp [cellF, hbr, hnx, emittedAt]

theorem docTitled_cellF (cfg : Config) (ts : String) (w hh : ℚ) (txt : String)
    (fl : Bool) (tag : Tag) (nx : Bool) (s : RState) (h : docTitled s) :
    docTitled (cellF cfg ts w hh txt fl tag nx s) := by
  obtain ⟨hp0, htl, t, htmem, httag, htpage⟩ := h
  rcases cellF_cases cfg ts w hh txt fl tag nx s with
    ⟨hbr, hpage, hinstr⟩ | ⟨hbr, hpage, hinstr⟩
  · refine ⟨by rw [hpage]; exact hp0, ?_, ?_⟩
    · rw [hinstr]
      intro c hc
      rcases List.mem_append.mp hc with h1 | h1
      · obtain ⟨t', ht'm, ht't, ht'p⟩ := htl c h1
        exact ⟨t', List.mem_append_left _ ht'm, ht't, ht'p⟩
      · rw [List.mem_singleton.mp h1]
        exact ⟨t, List.mem_append_left _ htmem, httag, by rw [htpage]; rfl⟩
    · exact ⟨t, by rw [hinstr]; exact List.mem_append_left _ htmem, httag,
        by rw [htpage, hpage]⟩
  · rw [if_pos hp0] at hinstr
    refine ⟨by rw [hpage]; exact Nat.succ_pos _, ?_, ?_⟩
    · rw [hinstr]
      intro c hc
      rcases List.mem_append.mp hc with h1 | h1
      · rcases List.mem_append.mp h1 with h2 | h2
        · rcases List.mem_append.mp h2 with h3 | h3
          · obtain ⟨t', ht'm, ht't, ht'p⟩ := htl c h3
            exact ⟨t', List.mem_append_left _ (List.mem_append_left _
              (List.mem_append_left _ ht'm)), ht't, ht'p⟩
          · rw [List.mem_singleton.mp h3]
            refine ⟨t, List.mem_append_left _ (List.mem_append_left _
              (List.mem_append_left _ htmem)), httag, ?_⟩
            rw [htpage]
            rfl
        · rw [List.mem_singleton.mp h2]
          refine ⟨titleCell cfg (s.page + 1), ?_, rfl, rfl⟩
          exact List.mem_append_left _ (List.mem_append_right _
            (List.mem_singleton.mpr rfl))
      · rw [List.mem_singleton.mp h1]
        refine ⟨titleCell cfg (s.page + 1), ?_, rfl, rfl⟩
        exact List.mem_append_left _ (List.mem_append_right _
          (List.mem_singleton.mpr rfl))
    · refine ⟨titleCell cfg (s.page + 1), ?_, rfl, by rw [hpage]; rfl⟩
      rw [hinstr]
      exact List.mem_append_left _ (List.mem_append_right _
        (List.mem_singleton.mpr rfl))

theorem docTitled_lnMove (cfg : Config) (dh : ℚ) (s : RState)
    (h : docTitled s) : docTitled (lnMove cfg dh s) := h

theorem docTitled_emitHeaderCells (cfg : Config) (ts : String) (cw : ℚ) :
    ∀ (cols : List String) (j : Nat) (s : RState), docTitled s →
      docTitled (emitHeaderCells cfg ts cw j cols s)
  | [], _, _, h => h
  | c :: rest, j, s, h =>
      docTitled_emitHeaderCells cfg ts cw rest (j + 1) _
        (docTitled_cellF cfg ts cw 10 (trunc 15 c) true (.hdrCol j) false s h)

theorem docTitled_emitVals (cfg : Config) (ts : String) (cw : ℚ) (fl : Bool)
    (i : Nat) (row : List String) :
    ∀ (k j : Nat) (s : RState), docTitled s →
      docTitled (emitVals cfg ts cw fl i row j k s)
  | 0, _, _, h => h
  | k + 1, j, s, h =>
      docTitled_emitVals cfg ts cw fl i row k (j + 1) _
        (docTitled_cellF cfg ts cw 8 (trunc 20 (row.getD j "")) fl
          (.dataVal i j) false s h)

theorem docTitled_emitRow (cfg : Config) (ts : String) (n : Nat) (cw : ℚ)
    (i : Nat) (row : List String) (s : RState) (h : docTitled s) :
    docTitled (emitRow cfg ts n cw i row s) :=
  docTitled_lnMove cfg 8 _
    (docTitled_emitVals cfg ts cw (i % 2 == 0) i row n 0 _
      (docTitled_cellF cfg ts numColWidth 8 (toString (i + 1)) (i % 2 == 0)
        (.dataIdx i) false s h))

theorem docTitled_emitRows (cfg : Config) (ts : String) (n : Nat) (cw : ℚ) :
    ∀ (rows : List (List String)) (i : Nat) (s : RState), docTitled s →
      docTitled (emitRows cfg ts n cw i rows s)
  | [], _, _, h => h
  | row :: rest, i, s, h =>
      docTitled_emitRows cfg ts n cw rest (i + 1) _
        (docTitled_emitRow cfg ts n cw i row s h)

theorem docTitled_first_page (cfg : Config) (ts : String) :
    docTitled (addPage cfg ts (initState cfg)) := by
  rw [addPage_init]
  refine ⟨Nat.one_pos, ?_, titleCell cfg 1, List.mem_singleton.mpr rfl, rfl, rfl⟩
  intro c hc
  rw [List.mem_singleton.mp hc]
  exact ⟨titleCell cfg 1, List.mem_singleton.mpr rfl, rfl, rfl⟩

/-- Cells of data rows (index or value cells). -/
def isDataBand : Tag → Bool
  | .dataIdx _ => true
  | .dataVal _ _ => true
  | _ => false

set_option maxRecDepth 200000 in
/-- C1 counterexample: a one-column dataset of 31 identical rows needs a
second page at the script's geometry; page 2 carries data-row cells, yet
no table-header-band cell (neither the `№` marker nor a column-name
cell) is ever emitted on page 2 — so the page after the first does not
begin with a re-rendered table header band, contradicting the claim. -/
theorem claim_C1_counterexample :
    ((addProductsTable cfg0 "T" ["Name"] (List.replicate 31 ["x"])).1.instrs.any
        fun c => c.page == 2 && isDataBand c.tag) = true
    ∧ ((addProductsTable cfg0 "T" ["Name"] (List.replicate 31 ["x"])).1.instrs.all
        fun c => !(isHeaderBand c.tag && c.page == 2)) = true :=
  ⟨of_decide_eq_true (by with_unfolding_all rfl),
    of_decide_eq_true (by with_unfolding_all rfl)⟩


theorem tablePhase_header_pages (ts : String) (cols : List String)
    (rows : List (List String)) (cw : ℚ) (s1 : RState)
    (hy : s1.y = cfg0.tMargin + 10 + 5) (hpage : s1.page = 1)
    (hall : ∀ c ∈ s1.instrs, c.page = 1) :
    ∀ c ∈ (cellF cfg0 ts 0 10 (summaryText rows.length) false .summary true
      (lnMove cfg0 5 (emitRows cfg0 ts cols.length cw 0 rows
        (lnMove cfg0 10 (emitHeaderCells cfg0 ts cw 0 cols s1))))).instrs,
      isHeaderBand c.tag = true → c.page = 1 := by
  obtain ⟨hp2, hy2, δh, hδh, hhdrδ⟩ :=
    emitHeaderCells_pages cfg0 ts cw cols 0 s1 (by rw [hy]; exact cfg0_fit10)
  obtain ⟨δr, hδr, hrδ⟩ :=
    emitRows_tags cfg0 ts cols.length cw cfg0_fit8 rows 0
      (lnMove cfg0 10 (emitHeaderCells cfg0 ts cw 0 cols s1))
  obtain ⟨δs, hδs, hsδ⟩ :=
    cellF_tags cfg0 ts 0 10 (summaryText rows.length) false .summary true
      (lnMove cfg0 5 (emitRows cfg0 ts cols.length cw 0 rows
        (lnMove cfg0 10 (emitHeaderCells cfg0 ts cw 0 cols s1))))
  rw [instrs_lnMove] at hδs
  rw [instrs_lnMove, hδh] at hδr
  rw [hδr] at hδs
  intro c hc hhdr
  rw [hδs] at hc
  rcases List.mem_append.mp hc with h1 | h1
  · rcases List.mem_append.mp h1 with h2 | h2
    · rcases List.mem_append.mp h2 with h3 | h3
      · exact hall c h3
      · rw [(hhdrδ c h3).1, hpage]
    · rcases hrδ c h2 with ⟨i', h4⟩ | h4 | h4
      · rcases h4 with h5 | ⟨j, h5⟩ <;> rw [h5] at hhdr <;>
          simp [isHeaderBand] at hhdr
      · rw [h4] at hhdr
        simp [isHeaderBand] at hhdr
      · rw [h4] at hhdr
        simp [isHeaderBand] at hhdr
  · rcases hsδ c h1 with h4 | h4 | h4 <;> rw [h4] at hhdr <;>
      simp [isHeaderBand] at hhdr

theorem tablePhase_titled (ts : String) (cols : List String)
    (rows : List (List String)) (cw : ℚ) (s1 : RState) (h : docTitled s1) :
    titled (cellF cfg0 ts 0 10 (summaryText rows.length) false .summary true
      (lnMove cfg0 5 (emitRows cfg0 ts cols.length cw 0 rows
        (lnMove cfg0 10 (emitHeaderCells cfg0 ts cw 0 cols s1))))).instrs :=
  (docTitled_cellF cfg0 ts 0 10 (summaryText rows.length) false .summary true _
    (docTitled_lnMove cfg0 5 _
      (docTitled_emitRows cfg0 ts cols.length cw rows 0 _
        (docTitled_lnMove cfg0 10 _
          (docTitled_emitHeaderCells cfg0 ts cw cols 0 s1 h))))).2.1

/-- C1 as amended: when a pending data row would pass the printable
bottom margin, the PDF library's automatic page break closes the page
(footer), opens a new one and re-renders only the page-title band before
the row — the table header band is emitted exactly once: every header
band cell (`№` marker or column-name cell) sits on page 1, while every
emitted band, on whatever page, shares its page with a title band. -/
theorem claim_C1_amended (ts : String) (cols : List String)
    (rows : List (List String)) :
    (∀ c ∈ (addProductsTable cfg0 ts cols rows).1.instrs,
        isHeaderBand c.tag = true → c.page = 1)
    ∧ (∀ c ∈ (addProductsTable cfg0 ts cols rows).1.instrs,
        ∃ t ∈ (addProductsTable cfg0 ts cols rows).1.instrs,
          t.tag = Tag.title ∧ t.page = c.page) := by
  by_cases hn : cols.length = 0
  · have heq : (addProductsTable cfg0 ts cols rows).1.instrs
        = [titleCell cfg0 1] := by
      unfold addProductsTable
      rw [if_pos hn]
      simp [addPage_init]
    rw [heq]
    constructor
    · intro c hc hhdr
      rw [List.mem_singleton.mp hc] at hhdr
      simp [titleCell, isHeaderBand] at hhdr
    · intro c hc
      rw [List.mem_singleton.mp hc]
      exact ⟨titleCell cfg0 1, List.mem_singleton.mpr rfl, rfl, rfl⟩
  · have hs1 : cellF cfg0 ts numColWidth 10 "№" true Tag.hdrIdx false
        (addPage cfg0 ts (initState cfg0))
        = { page := 1
            x := cfg0.lMargin + numColWidth
            y := cfg0.tMargin + 10 + 5
            instrs := [titleCell cfg0 1,
              emittedAt cfg0 numColWidth 10 "№" true Tag.hdrIdx 1 cfg0.lMargin
                (cfg0.tMargin + 10 + 5)] } := by
      rw [cellF_fit_false cfg0 ts numColWidth 10 "№" true Tag.hdrIdx _
        (by rw [addPage_init cfg0 ts]; exact cfg0_fit10), addPage_init cfg0 ts]
      norm_num [numColWidth]
    unfold addProductsTable
    rw [if_neg hn]
    dsimp only
    rw [hs1]
    constructor
    · refine tablePhase_header_pages ts cols rows (colWidth cols.length) _
        rfl rfl ?_
      intro c hc
      rcases List.mem_cons.mp hc with h4 | h4
      · rw [h4]
        rfl
      · rw [List.mem_singleton.mp h4]
        rfl
    · refine tablePhase_titled ts cols rows (colWidth cols.length) _
        ⟨Nat.one_pos, ?_, titleCell cfg0 1, List.mem_cons_self _ _, rfl, rfl⟩
      intro c hc
      rcases List.mem_cons.mp hc with h4 | h4
      · rw [h4]
        exact ⟨titleCell cfg0 1, List.mem_cons_self _ _, rfl, rfl⟩
      · rw [List.mem_singleton.mp h4]
        exact ⟨titleCell cfg0 1, List.mem_cons_self _ _, rfl, rfl⟩

set_option maxRecDepth 400000 in
/-- Witness for C1's amended claim: a column-name header cell of a
concrete dataset lies on page 1, and its page carries a title band. -/
theorem claim_C1_amended_witness :
    (({ page := 1, x := 22, y := 25, w := 178, h := 10, text := "A",
         fill := true, tag := Tag.hdrCol 0 } : Cell)
        ∈ (addProductsTable cfg0 "T" ["A"] [["x"]]).1.instrs
      ∧ isHeaderBand (Tag.hdrCol 0) = true
      ∧ ({ page := 1, x := 22, y := 25, w := 178, h := 10, text := "A",
           fill := true, tag := Tag.hdrCol 0 } : Cell).page = 1)
    ∧ ∃ t ∈ (addProductsTable cfg0 "T" ["A"] [["x"]]).1.instrs,
        t.tag = Tag.title
        ∧ t.page = ({ page := 1, x := 22, y := 25, w := 178, h := 10,
                      text := "A", fill := true, tag := Tag.hdrCol 0 } : Cell).page :=
  ⟨⟨of_decide_eq_true (by with_unfolding_all rfl), rfl,
    (claim_C1_amended "T" ["A"] [["x"]]).1 _
      (of_decide_eq_true (by with_unfolding_all rfl)) rfl⟩,
    (claim_C1_amended "T" ["A"] [["x"]]).2 _
      (of_decide_eq_true (by with_unfolding_all rfl))⟩
